import Mathlib

/-!
Verification of the MuSig2 round-based protocol engine.

Shallow embedding of the repository sources:
  * src/cli/party/rounds.rs          (signing rounds Prepare, Round1, Round2)
  * src/cli/party/async_protocol.rs  (async executor)
  * src/cli/party/sim/simulation.rs  (simulation executor)
  * src/cli/protocals/key.rs         (curve wrapper; out of scope per spec section 1,
                                      points and scalars are opaque payloads here)

The curve/signature module (sign, sign_prime, sign_double_prime, verify, KeyAgg,
State, StatePrime) is repository code that is not available under src/; following
the spec, those operations are treated as an abstract bundle of pure functions
(`MusigCrypto`) that the round transitions are parameterised over.  Machine-level
features (panics, mutation, async scheduling) are made explicit: panics are a
constructor of the result types, the inbound stream is an explicit event schedule,
and loops take fuel (a run out of fuel models divergence).
-/

namespace Musig2

/-- Curve points (`GE`) are opaque payloads: curve arithmetic is an external
collaborator per spec section 1/section 6, and no claim depends on its algebra. -/
abbrev GE := Nat

/-- Field/scalar elements (`FE`), also opaque payloads. -/
abbrev FE := Nat

/-- `BigInt` commitments, opaque payloads. -/
abbrev BInt := Nat

/-- Opaque signer state produced by `sign` (the `State` of the signature module). -/
abbrev SignState := Nat

/-- Opaque signer state produced by `sign_prime` (the `StatePrime` of the
signature module). -/
abbrev SignStatePrime := Nat

/-- `KeyPair`: private scalar plus its public point (spec section 3). -/
structure KeyPair where
  privateKey : FE
  publicKey : GE
  deriving Repr, DecidableEq

/-- Aggregated key material: per-party aggregation coefficient and the
aggregate public key `X_tilde` (spec section 3; the concrete `KeyAgg` struct
lives in the signature module outside src/). -/
structure KeyAgg where
  Xtilde : GE
  coeff : FE
  deriving Repr, DecidableEq

/-- Modelled from the spec: the signature-module operations consumed by
`rounds.rs` (`sign`, `KeyAgg::key_aggregation_n`, `State::sign_prime`,
`State::compute_global_params`, `sign_double_prime`, `verify`, `x_coor`).
That module is not under src/; per spec section 4.5 the nonce derivation is
deterministic given a fixed per-party seed, and all operations are pure.  The
round transitions below are parameterised over this bundle. -/
structure MusigCrypto where
  sign : KeyPair → Nat → List GE × SignState
  keyAggregationN : List GE → Nat → KeyAgg
  signPrime : SignState → List Nat → List GE → List (List GE) → Nat → SignStatePrime × FE
  computeGlobalParams : SignState → List Nat → List GE → List (List GE) → Nat → BInt × GE
  signDoublePrime : SignStatePrime → List FE → FE
  verify : FE → Nat → GE → BInt → Bool
  xCoor : GE → Nat

/-- Message envelope `Msg<Body>` (traits/state_machine): sender index,
optional receiver (`none` = broadcast), body. -/
structure Msg (B : Type) where
  sender : Nat
  receiver : Option Nat
  body : B
  deriving Repr, DecidableEq

/-- `MessageRound1` from rounds.rs: ephemeral keys (nonce set), the message
being signed, and the sender's public key. -/
structure MessageRound1 where
  ephemeralKeys : List GE
  message : List Nat
  pubkey : GE
  deriving Repr, DecidableEq

/-- `MessageRound2` from rounds.rs: the sender's partial-signature scalar. -/
structure MessageRound2 where
  signFragment : FE
  deriving Repr, DecidableEq

/-- `Prepare` round state from rounds.rs.  The `seed` field is modelled from
the spec: Musig2Instance::with_fixed_seed (outside src/) fixes the randomness
of the nonce derivation, making `sign` deterministic for a given seed. -/
structure PrepareSt where
  myInd : Nat
  keyPair : KeyPair
  message : List Nat
  seed : Nat
  deriving Repr, DecidableEq

/-- `Round1` round state from rounds.rs. -/
structure Round1St where
  myInd : Nat
  state1 : SignState
  keyPair : KeyPair
  message : List Nat
  deriving Repr, DecidableEq

/-- `Round2` round state from rounds.rs. -/
structure Round2St where
  myInd : Nat
  commit : BInt
  r : GE
  state2 : SignStatePrime
  keyPair : KeyPair
  keyAgg : KeyAgg
  deriving Repr, DecidableEq

/-- `SignResult` from rounds.rs: the final aggregate signature. -/
structure SignResult where
  r : GE
  s : FE
  commit : BInt
  deriving Repr, DecidableEq

/-- `ProceedError` from rounds.rs (its only variant). -/
inductive ProceedError where
  | partiesDidntRevealItsSeed (partyInd : List Nat)
  deriving Repr, DecidableEq

/-- Result of `Round2::proceed`: the Rust function returns
`Result<SignResult, ProceedError>` but may also panic (its `assert!`);
the panic is an explicit constructor here. -/
inductive ProceedOut (α : Type) where
  | ok (a : α)
  | err (e : ProceedError)
  | panic
  deriving Repr, DecidableEq

/-- `Prepare::proceed` from rounds.rs: derives the nonce set via `sign`,
pushes one broadcast `MessageRound1`, and moves to `Round1`. -/
def prepareProceed (C : MusigCrypto) (p : PrepareSt) : Msg MessageRound1 × Round1St :=
  let pr := C.sign p.keyPair p.seed
  (⟨p.myInd, none, ⟨pr.1, p.message, p.keyPair.publicKey⟩⟩,
   ⟨p.myInd, pr.2, p.keyPair, p.message⟩)

/-- The pks-building loop of `Round1::proceed` (rounds.rs lines 83-89):
iterates over the received messages with index `i`, inserting the party's own
public key just before position `i` when `i + 1 == cur_ind`. -/
def buildPksLoop (own : GE) (curInd : Nat) : Nat → List GE → List GE
  | _, [] => []
  | i, pk :: rest =>
    if i + 1 = curInd then own :: pk :: buildPksLoop own curInd (i + 1) rest
    else pk :: buildPksLoop own curInd (i + 1) rest

/-- Full pks construction of `Round1::proceed` (rounds.rs lines 79-92): the
loop above followed by the trailing `if input.msgs.len() + 1 == cur_ind`
push of the party's own key. -/
def buildPks (own : GE) (curInd : Nat) (pubkeys : List GE) : List GE :=
  buildPksLoop own curInd 0 pubkeys ++
    (if pubkeys.length + 1 = curInd then [own] else [])

/-- `Round1::proceed` from rounds.rs: reconstructs the full public-key list,
computes `KeyAgg::key_aggregation_n`, the signature fragment (`sign_prime`)
and the global parameters (`compute_global_params`), then broadcasts the
fragment and moves to `Round2`. -/
def round1Proceed (C : MusigCrypto) (r : Round1St) (input : List MessageRound1) :
    Msg MessageRound2 × Round2St :=
  let pks := buildPks r.keyPair.publicKey r.myInd (input.map (fun m => m.pubkey))
  let receivedNonce := input.map (fun m => m.ephemeralKeys)
  let partyIndex := r.myInd - 1
  let keyAgg := C.keyAggregationN pks partyIndex
  let sp := C.signPrime r.state1 r.message pks receivedNonce partyIndex
  let gp := C.computeGlobalParams r.state1 r.message pks receivedNonce partyIndex
  (⟨r.myInd, none, ⟨sp.2⟩⟩,
   ⟨r.myInd, gp.1, gp.2, sp.1, r.keyPair, keyAgg⟩)

/-- `Round2::proceed` from rounds.rs: sums the received fragments via
`sign_double_prime`, then `assert!(verify(&s, &self.r.x_coor().unwrap(),
&self.key_agg.X_tilde, &self.commit).is_ok())` — a failing verification
PANICS (assertion failure); only a passing verification reaches
`Ok(SignResult { .. })`. -/
def round2Proceed (C : MusigCrypto) (r2 : Round2St) (input : List MessageRound2) :
    ProceedOut SignResult :=
  let received := input.map (fun m => m.signFragment)
  let s := C.signDoublePrime r2.state2 received
  if C.verify s (C.xCoor r2.r) r2.keyAgg.Xtilde r2.commit then
    .ok ⟨r2.r, s, r2.commit⟩
  else
    .panic

/-! ## The StateMachine contract (traits/state_machine.rs, not under src/)

Modelled from the spec, section 4.1: a conforming round protocol is a bundle of
pure operations over its state type `S`.  Mutation of `&mut self` becomes
explicit state passing; `proceed` may panic (captured by the async executor,
propagated by the simulation), which `ProceedRes.panicked` makes explicit;
`is_critical` is the capability of the error type (`IsCritical` trait). -/

/-- Outcome of one `proceed()` call: success, a typed protocol error, or a
panic inside the state machine (e.g. the `assert!` of `Round2::proceed`). -/
inductive ProceedRes (E : Type) where
  | ok
  | fail (e : E)
  | panicked
  deriving Repr, DecidableEq

/-- Modelled from the spec: the `StateMachine` trait (section 4.1) as a bundle
of pure operations over state type `S`, message body `B`, error `E`, output
`O`.  `drainQueue` models `message_queue().drain(..)`. -/
structure SM (S B E O : Type) where
  partyInd : S → Nat
  currentRound : S → Nat
  wantsToProceed : S → Bool
  proceed : S → S × ProceedRes E
  handleIncoming : Msg B → S → S × Option E
  messageQueue : S → List (Msg B)
  drainQueue : S → S
  roundTimeout : S → Option Nat
  roundTimeoutReached : S → E
  isFinished : S → Bool
  pickOutput : S → Option (Except E O)
  isCritical : E → Bool

/-! ## Simulation executor (sim/simulation.rs) -/

/-- Where a panic in the simulation run originates: the
`assert!(self.parties.len() >= 2, "at least two parties required")` at the
top of `Simulation::run`, the
`.expect("is_finished == true, but pick_output == None")` inside
`finish_if_possible`, or a panic propagating out of a party's `proceed()`. -/
inductive PanicKind where
  | assertTwoParties
  | expectPickOutput
  | smPanic
  deriving Repr, DecidableEq

/-- Outcome of a simulation step or run: normal value, first critical error
(`Result::Err`), or a panic. -/
inductive SimStep (α : Type) (E : Type) where
  | ok (a : α)
  | err (e : E)
  | panicked (k : PanicKind)
  deriving Repr, DecidableEq

/-- Diagnostic lines the simulation prints to stdout (its observer channel):
the non-critical-error lines of `proceed_if_needed`/`handle_incoming`, and the
some-finished-but-not-all warning of `finish_if_possible` together with the
two party-index lists it prints. -/
inductive SimLog (E : Type) where
  | nonCritical (e : E)
  | warnNotAllFinished (fin notFin : List Nat)
  deriving Repr, DecidableEq

/-- The skip condition of `Party::handle_incoming` (simulation.rs lines
204-207), verbatim:
`Some(self.state.party_ind()) != msg.receiver && (msg.receiver.is_some() || msg.sender == self.state.party_ind())`. -/
def shouldSkip {B : Type} (ind : Nat) (msg : Msg B) : Bool :=
  (some ind != msg.receiver) && (msg.receiver.isSome || msg.sender == ind)

/-- Result of one party scanning the frozen message pull. `handled` records,
in order, exactly the messages on which `handle_incoming` was invoked. -/
structure HIRes (S B E : Type) where
  state : S
  crit : Option E
  logs : List (SimLog E)
  handled : List (Msg B)

/-- `Party::handle_incoming` (simulation.rs lines 202-228): scan the frozen
pull in order; skip messages failing the addressing rule; feed the rest to the
state machine; a critical error returns immediately (`return Err(err)`), a
non-critical error is printed and the scan continues. -/
def simPartyHandleIncoming {S B E : Type} (m : SM S B E O) (s : S) :
    List (Msg B) → HIRes S B E
  | [] => ⟨s, none, [], []⟩
  | msg :: rest =>
    if shouldSkip (m.partyInd s) msg then simPartyHandleIncoming m s rest
    else
      let hr := m.handleIncoming msg s
      match hr.2 with
      | none =>
        let r := simPartyHandleIncoming m hr.1 rest
        ⟨r.state, r.crit, r.logs, msg :: r.handled⟩
      | some e =>
        if m.isCritical e then ⟨hr.1, some e, [], [msg]⟩
        else
          let r := simPartyHandleIncoming m hr.1 rest
          ⟨r.state, r.crit, .nonCritical e :: r.logs, msg :: r.handled⟩

/-- `Party::proceed_if_needed` (simulation.rs lines 158-187): if the machine
wants to proceed, call `proceed`; a critical error is returned (`return
Err(err)`), a non-critical error is printed and the call succeeds; a panic in
`proceed` propagates.  (Benchmark stopwatch bookkeeping is observationally
irrelevant and omitted.) -/
def simPartyProceed {S B E : Type} (m : SM S B E O) (s : S) :
    S × SimStep Unit E × List (SimLog E) :=
  if m.wantsToProceed s then
    let pr := m.proceed s
    match pr.2 with
    | .ok => (pr.1, .ok (), [])
    | .fail e =>
      if m.isCritical e then (pr.1, .err e, [])
      else (pr.1, .ok (), [.nonCritical e])
    | .panicked => (pr.1, .panicked .smPanic, [])
  else (s, .ok (), [])

/-- `Party::send_outgoing` (simulation.rs lines 189-200): append the party's
message queue to the pull and drain it. -/
def simSendOutgoing {S B E : Type} (m : SM S B E O) (s : S) : S × List (Msg B) :=
  (m.drainQueue s, m.messageQueue s)

/-- Outcome of driving every party through one phase (handle or proceed):
the updated party list plus the messages they pushed, or the first critical
error / panic (the Rust `?` aborts the run there). -/
inductive PhaseRes (S B E : Type) where
  | ok (parties : List S) (out : List (Msg B)) (logs : List (SimLog E))
  | fail (e : E) (logs : List (SimLog E))
  | panicked (k : PanicKind) (logs : List (SimLog E))

/-- The handle-incoming half of the simulation loop body
(`for party in &mut parties { party.handle_incoming(&msgs_pull_frozen)?;
party.send_outgoing(&mut msgs_pull); }`). -/
def simHandlePhase {S B E : Type} (m : SM S B E O) (frozen : List (Msg B)) :
    List S → PhaseRes S B E
  | [] => .ok [] [] []
  | s :: rest =>
    let h := simPartyHandleIncoming m s frozen
    match h.crit with
    | some e => .fail e h.logs
    | none =>
      let so := simSendOutgoing m h.state
      match simHandlePhase m frozen rest with
      | .ok ps out logs => .ok (so.1 :: ps) (so.2 ++ out) (h.logs ++ logs)
      | .fail e logs => .fail e (h.logs ++ logs)
      | .panicked k logs => .panicked k (h.logs ++ logs)

/-- The proceed half of the simulation loop body (also the pre-loop prologue:
`for party in &mut parties { party.proceed_if_needed(..)?;
party.send_outgoing(&mut msgs_pull); }`). -/
def simProceedPhase {S B E : Type} (m : SM S B E O) :
    List S → PhaseRes S B E
  | [] => .ok [] [] []
  | s :: rest =>
    let p := simPartyProceed m s
    match p.2.1 with
    | .err e => .fail e p.2.2
    | .panicked k => .panicked k p.2.2
    | .ok _ =>
      let so := simSendOutgoing m p.1
      match simProceedPhase m rest with
      | .ok ps out logs => .ok (so.1 :: ps) (so.2 ++ out) (p.2.2 ++ logs)
      | .fail e logs => .fail e (p.2.2 ++ logs)
      | .panicked k logs => .panicked k (p.2.2 ++ logs)

/-- The output-collection loop of `finish_if_possible` (simulation.rs lines
245-253): for every party, `pick_output().expect("is_finished == true, but
pick_output == None")?` — a `None` output PANICS, an `Err` output aborts the
run with that error. -/
def collectOutputs {S B E O : Type} (m : SM S B E O) :
    List S → SimStep (List O) E
  | [] => .ok []
  | s :: rest =>
    match m.pickOutput s with
    | none => .panicked .expectPickOutput
    | some (.error e) => .err e
    | some (.ok o) =>
      match collectOutputs m rest with
      | .ok os => .ok (o :: os)
      | .err e => .err e
      | .panicked k => .panicked k

/-- `finish_if_possible` (simulation.rs lines 231-278): nobody finished →
continue (`Ok(None)`); everyone finished → collect all outputs; some but not
all finished → print the warning with the finished / not-finished party lists
and continue. -/
def simFinishIfPossible {S B E O : Type} (m : SM S B E O) (parties : List S) :
    SimStep (Option (List O)) E × List (SimLog E) :=
  if !(parties.any (fun p => m.isFinished p)) then (.ok none, [])
  else if parties.all (fun p => m.isFinished p) then
    match collectOutputs m parties with
    | .ok os => (.ok (some os), [])
    | .err e => (.err e, [])
    | .panicked k => (.panicked k, [])
  else
    (.ok none,
     [.warnNotAllFinished
        ((parties.filter (fun p => m.isFinished p)).map m.partyInd)
        ((parties.filter (fun p => !(m.isFinished p))).map m.partyInd)])

/-- The main simulation loop (simulation.rs lines 127-143): freeze the pull,
run the handle phase, run the proceed phase, check for completion; `none`
means the fuel ran out (the Rust loop would keep iterating). -/
def simLoop {S B E O : Type} (m : SM S B E O) :
    Nat → List S → List (Msg B) → List (SimLog E) →
    Option (SimStep (List O) E) × List (SimLog E)
  | 0, _, _, logs => (none, logs)
  | fuel + 1, parties, pull, logs =>
    match simHandlePhase m pull parties with
    | .fail e lg => (some (.err e), logs ++ lg)
    | .panicked k lg => (some (.panicked k), logs ++ lg)
    | .ok ps1 out1 lg1 =>
      match simProceedPhase m ps1 with
      | .fail e lg => (some (.err e), logs ++ lg1 ++ lg)
      | .panicked k lg => (some (.panicked k), logs ++ lg1 ++ lg)
      | .ok ps2 out2 lg2 =>
        match simFinishIfPossible m ps2 with
        | (.ok none, lgf) => simLoop m fuel ps2 (out1 ++ out2) (logs ++ lg1 ++ lg2 ++ lgf)
        | (.ok (some res), lgf) => (some (.ok res), logs ++ lg1 ++ lg2 ++ lgf)
        | (.err e, lgf) => (some (.err e), logs ++ lg1 ++ lg2 ++ lgf)
        | (.panicked k, lgf) => (some (.panicked k), logs ++ lg1 ++ lg2 ++ lgf)

/-- `Simulation::run` (simulation.rs lines 105-144): assert at least two
parties (a violation panics before driving any party or delivering any
message), run the proceed prologue, check for completion, then loop. -/
def simRun {S B E O : Type} (m : SM S B E O) (fuel : Nat) (parties : List S) :
    Option (SimStep (List O) E) × List (SimLog E) :=
  if parties.length < 2 then (some (.panicked .assertTwoParties), [])
  else
    match simProceedPhase m parties with
    | .fail e lg => (some (.err e), lg)
    | .panicked k lg => (some (.panicked k), lg)
    | .ok ps out lg =>
      match simFinishIfPossible m ps with
      | (.ok none, lgf) => simLoop m fuel ps out (lg ++ lgf)
      | (.ok (some res), lgf) => (some (.ok res), lg ++ lgf)
      | (.err e, lgf) => (some (.err e), lg ++ lgf)
      | (.panicked k, lgf) => (some (.panicked k), lg ++ lgf)

/-! ## Async executor (async_protocol.rs)

The inbound stream together with the round deadline is modelled as an infinite
schedule of events (`InEvent`): the next message, a transport receive error,
end-of-input, or the elapse of an armed deadline (`timeout_at` firing before
`incoming.next()` yields).  The outbound sink is modelled as an infallible
collector (`outbox`); send errors are not exercised by any claim.  The watcher
notifications and the executor's externally visible interactions are recorded
in `wlog` / `acts`. -/

/-- One occurrence on the inbound side of `handle_incoming`
(async_protocol.rs lines 152-172): a message, a stream error, EOF, or the
round deadline elapsing while waiting. -/
inductive InEvent (B IErr : Type) where
  | msg (m : Msg B)
  | recvErr (e : IErr)
  | eof
  | timeout
  deriving Repr, DecidableEq

/-- `BadStateMachineReason` from async_protocol.rs. -/
inductive BadSMReason where
  | protocolFinishedButNoResult
  deriving Repr, DecidableEq

/-- `InternalError` from async_protocol.rs. -/
inductive InternalErr where
  | missingState
  deriving Repr, DecidableEq

/-- The `Error<E, RE, SE>` enum of async_protocol.rs (the `Send` variant is
unreachable in this model since the sink is an infallible collector). -/
inductive AErr (E IErr : Type) where
  | recv (e : IErr)
  | recvEof
  | handleIncoming (e : E)
  | handleIncomingTimeout (e : E)
  | proceedPanicked
  | proceed (e : E)
  | finish (e : E)
  | exhausted
  | badStateMachine (r : BadSMReason)
  | internalErr (i : InternalErr)
  deriving Repr, DecidableEq

/-- Call sites at which the watcher can observe a non-critical error
(the `When` enum of watcher.rs). -/
inductive WhenKind where
  | whenHandleIncoming
  | whenProceed
  deriving Repr, DecidableEq

/-- Watcher notification (`ProtocolWatcher::caught_non_critical_error`). -/
inductive WEvent (E : Type) where
  | nonCritical (w : WhenKind) (e : E)
  deriving Repr, DecidableEq

/-- Externally visible executor interactions, recorded so that theorems can
state that a code path performs none of them. -/
inductive AAct where
  | recvAct
  | sendAct
  | proceedAct
  | finishAct
  | refreshAct
  deriving Repr, DecidableEq

/-- The mutable state of an `AsyncProtocol` run: the option-of-state slot, the
remembered round number (`current_round`, whose `is_some()` is the
exhausted-check), the event schedule with its cursor, the outbox, the watcher
log, and the action trace. -/
structure ACtx (S B IErr E : Type) where
  st : Option S
  curRound : Option Nat
  events : Nat → InEvent B IErr
  evIx : Nat
  outbox : List (Msg B)
  wlog : List (WEvent E)
  acts : List AAct

/-- Sequencing of the `?`-propagated steps of `run`: a step error becomes the
run's result. -/
def andThen {S B IErr E O : Type} (r : ACtx S B IErr E × Option (AErr E IErr))
    (k : ACtx S B IErr E → Option (Except (AErr E IErr) O) × ACtx S B IErr E) :
    Option (Except (AErr E IErr) O) × ACtx S B IErr E :=
  match r with
  | (c, some e) => (some (.error e), c)
  | (c, none) => k c

/-- `refresh_timer` (async_protocol.rs lines 227-238): read `current_round()`
and remember it when it changed (the deadline itself is represented by the
schedule's `timeout` events). -/
def aRefresh {S B IErr E O : Type} (m : SM S B E O) (c : ACtx S B IErr E) :
    ACtx S B IErr E × Option (AErr E IErr) :=
  match c.st with
  | none => (c, some (.internalErr .missingState))
  | some s =>
    let rn := m.currentRound s
    if c.curRound = some rn then ({ c with acts := c.acts ++ [.refreshAct] }, none)
    else ({ c with curRound := some rn, acts := c.acts ++ [.refreshAct] }, none)

/-- `proceed_if_needed` (async_protocol.rs lines 176-192): take the state out
of the slot, proceed off-thread if wanted; a panic of `proceed` loses the
moved-in state (the slot stays `None`) and surfaces as `ProceedPanicked`;
critical errors abort, non-critical ones go to the watcher. -/
def aProceedIfNeeded {S B IErr E O : Type} (m : SM S B E O) (c : ACtx S B IErr E) :
    ACtx S B IErr E × Option (AErr E IErr) :=
  match c.st with
  | none => (c, some (.internalErr .missingState))
  | some s =>
    if m.wantsToProceed s then
      let pr := m.proceed s
      match pr.2 with
      | .panicked =>
        ({ c with st := none, acts := c.acts ++ [.proceedAct] }, some .proceedPanicked)
      | .ok => ({ c with st := some pr.1, acts := c.acts ++ [.proceedAct] }, none)
      | .fail e =>
        if m.isCritical e then
          ({ c with st := some pr.1, acts := c.acts ++ [.proceedAct] }, some (.proceed e))
        else
          ({ c with st := some pr.1,
                    wlog := c.wlog ++ [.nonCritical .whenProceed e],
                    acts := c.acts ++ [.proceedAct] }, none)
    else ({ c with acts := c.acts ++ [.proceedAct] }, none)

/-- `send_outgoing` (async_protocol.rs lines 194-207): drain the queue into
the sink (here: the outbox). -/
def aSendOutgoing {S B IErr E O : Type} (m : SM S B E O) (c : ACtx S B IErr E) :
    ACtx S B IErr E × Option (AErr E IErr) :=
  match c.st with
  | none => (c, some (.internalErr .missingState))
  | some s =>
    if (m.messageQueue s).isEmpty then ({ c with acts := c.acts ++ [.sendAct] }, none)
    else
      ({ c with st := some (m.drainQueue s),
                outbox := c.outbox ++ m.messageQueue s,
                acts := c.acts ++ [.sendAct] }, none)

/-- `handle_incoming` (async_protocol.rs lines 149-174): wait (bounded by the
deadline) for the next inbound occurrence; a message goes to the state
machine with the critical / non-critical split, a stream error becomes
`Recv`, end-of-input becomes `RecvEof`, and an elapsed deadline becomes
`HandleIncomingTimeout(state.round_timeout_reached())`. -/
def aHandleIncoming {S B IErr E O : Type} (m : SM S B E O) (c : ACtx S B IErr E) :
    ACtx S B IErr E × Option (AErr E IErr) :=
  match c.st with
  | none => (c, some (.internalErr .missingState))
  | some s =>
    let ev := c.events c.evIx
    let c := { c with evIx := c.evIx + 1, acts := c.acts ++ [AAct.recvAct] }
    match ev with
    | .msg mg =>
      let hr := m.handleIncoming mg s
      match hr.2 with
      | none => ({ c with st := some hr.1 }, none)
      | some e =>
        if m.isCritical e then ({ c with st := some hr.1 }, some (.handleIncoming e))
        else
          ({ c with st := some hr.1,
                    wlog := c.wlog ++ [WEvent.nonCritical .whenHandleIncoming e] }, none)
    | .recvErr e => (c, some (.recv e))
    | .eof => (c, some .recvEof)
    | .timeout => (c, some (.handleIncomingTimeout (m.roundTimeoutReached s)))

/-- `finish_if_possible` (async_protocol.rs lines 209-225): `None` when the
machine is not finished; otherwise the output, a `Finish` error, or — when
`pick_output()` disagrees with `is_finished()` —
`BadStateMachine(ProtocolFinishedButNoResult)`. -/
def aFinishIfPossible {S B IErr E O : Type} (m : SM S B E O) (c : ACtx S B IErr E) :
    ACtx S B IErr E × Option (Except (AErr E IErr) O) :=
  match c.st with
  | none => (c, some (.error (.internalErr .missingState)))
  | some s =>
    let c := { c with acts := c.acts ++ [.finishAct] }
    if !(m.isFinished s) then (c, none)
    else
      match m.pickOutput s with
      | some (.ok o) => (c, some (.ok o))
      | some (.error e) => (c, some (.error (.finish e)))
      | none => (c, some (.error (.badStateMachine .protocolFinishedButNoResult)))

/-- The body of the `loop` in `run` (async_protocol.rs lines 127-146):
handle incoming, send, refresh, proceed, send, refresh, finish-check; `none`
means the fuel ran out. -/
def aLoop {S B IErr E O : Type} (m : SM S B E O) :
    Nat → ACtx S B IErr E → Option (Except (AErr E IErr) O) × ACtx S B IErr E
  | 0, c => (none, c)
  | fuel + 1, c =>
    andThen (aHandleIncoming m c) fun c =>
    andThen (aSendOutgoing m c) fun c =>
    andThen (aRefresh m c) fun c =>
    andThen (aProceedIfNeeded m c) fun c =>
    andThen (aSendOutgoing m c) fun c =>
    andThen (aRefresh m c) fun c =>
      match aFinishIfPossible m c with
      | (c, some r) => (some r, c)
      | (c, none) => aLoop m fuel c

/-- `AsyncProtocol::run` (async_protocol.rs lines 110-147): the exhausted
check (`if self.current_round.is_some() { return Err(Error::Exhausted) }`)
comes first, before any other interaction; then refresh, proceed, send,
refresh, finish-check, and the loop. -/
def aRun {S B IErr E O : Type} (m : SM S B E O) (fuel : Nat) (c : ACtx S B IErr E) :
    Option (Except (AErr E IErr) O) × ACtx S B IErr E :=
  if c.curRound.isSome then (some (.error .exhausted), c)
  else
    andThen (aRefresh m c) fun c =>
    andThen (aProceedIfNeeded m c) fun c =>
    andThen (aSendOutgoing m c) fun c =>
    andThen (aRefresh m c) fun c =>
      match aFinishIfPossible m c with
      | (c, some r) => (some r, c)
      | (c, none) => aLoop m fuel c

/-- A freshly constructed executor (`AsyncProtocol::new`): state slot filled,
no remembered round, empty outbox / logs / trace. -/
def freshCtx {S B IErr E : Type} (s : S) (events : Nat → InEvent B IErr) :
    ACtx S B IErr E :=
  ⟨some s, none, events, 0, [], [], []⟩

/-! ## The concrete Musig2 state machine

Modelled from the spec: the `Musig2Instance` StateMachine implementation and
the per-round broadcast `Store` are repository code not under src/ (only their
callers are).  Per spec section 4.2 the store is keyed by sender, holds at most
one message per sender, rejects self / duplicate / out-of-range senders, is
ready at `n - 1` entries, and extracts in ascending sender order; per spec
sections 4.1/4.5 the instance drives Prepare → Round1 → Round2 → SignResult
and `round_timeout_reached` names the missing contributions
(`ProceedError::PartiesDidntRevealItsSeed`). -/

/-- The other parties' indices, ascending: `1..=n` without `selfI`. -/
def peersOf (selfI n : Nat) : List Nat :=
  (List.range' 1 n).filter (fun j => j != selfI)

/-- Modelled from the spec (section 4.2): `Store::push` — reject a
self-sourced, duplicate, or out-of-range sender, otherwise record the body
under its sender. -/
def storePush {β : Type} (store : List (Nat × β)) (selfI n sender : Nat) (b : β) :
    Option (List (Nat × β)) :=
  if sender == selfI || sender < 1 || n < sender || (store.lookup sender).isSome then
    none
  else some (store ++ [(sender, b)])

/-- Modelled from the spec (section 4.2): store readiness — one message from
each of the other `n - 1` parties. -/
def storeReady {β : Type} (store : List (Nat × β)) (n : Nat) : Bool :=
  store.length == n - 1

/-- Modelled from the spec (section 4.2): ordered extraction by ascending
sender index. -/
def storeExtract {β : Type} (store : List (Nat × β)) (selfI n : Nat) : List β :=
  (peersOf selfI n).filterMap (fun j => store.lookup j)

/-- Message body of the Musig2 instance: a round-1 or a round-2 message. -/
inductive M2Body where
  | one (m : MessageRound1)
  | two (m : MessageRound2)
  deriving Repr, DecidableEq

/-- Modelled from the spec: the error type of the Musig2 instance.
`partiesDidntReveal` is `ProceedError::PartiesDidntRevealItsSeed` (rounds.rs
lines 195-198, produced on round timeout, critical); `storeRejected` /
`wrongRound` are the message-intake errors of spec sections 4.1-4.2
(non-critical: reported, run continues). -/
inductive M2Err where
  | partiesDidntReveal (partyInd : List Nat)
  | storeRejected
  | wrongRound
  deriving Repr, DecidableEq

/-- Criticality capability of `M2Err` (spec section 7). -/
def M2Err.critical : M2Err → Bool
  | .partiesDidntReveal _ => true
  | .storeRejected => false
  | .wrongRound => false

/-- Current phase of a Musig2 instance: exactly one live round state
(spec section 3), with the collecting store attached to the waiting rounds. -/
inductive M2Phase where
  | prep (p : PrepareSt)
  | round1 (r : Round1St) (store : List (Nat × MessageRound1))
  | round2 (r : Round2St) (store : List (Nat × MessageRound2))
  | finished (res : SignResult)
  deriving Repr, DecidableEq

/-- Modelled from the spec: the `Musig2Instance` state — party index, party
count, live phase, outgoing message queue. -/
structure M2State where
  partyI : Nat
  partyN : Nat
  phase : M2Phase
  queue : List (Msg M2Body)
  deriving Repr, DecidableEq

/-- Round numbering of the instance (spec section 8 starts at round 0 for
Prepare). -/
def m2Round (st : M2State) : Nat :=
  match st.phase with
  | .prep _ => 0
  | .round1 _ _ => 1
  | .round2 _ _ => 2
  | .finished _ => 3

/-- `wants_to_proceed`: Prepare always; a collecting round exactly when its
store is ready. -/
def m2Wants (st : M2State) : Bool :=
  match st.phase with
  | .prep _ => true
  | .round1 _ store => storeReady store st.partyN
  | .round2 _ store => storeReady store st.partyN
  | .finished _ => false

/-- `proceed`: run the live round's transition from rounds.rs, queueing its
broadcast; a failing `Round2` verification is the propagated `assert!`
panic. -/
def m2Proceed (C : MusigCrypto) (st : M2State) : M2State × ProceedRes M2Err :=
  match st.phase with
  | .prep p =>
    let pr := prepareProceed C p
    ({ st with phase := .round1 pr.2 [],
               queue := st.queue ++ [⟨pr.1.sender, pr.1.receiver, .one pr.1.body⟩] },
     .ok)
  | .round1 r store =>
    if storeReady store st.partyN then
      let batch := storeExtract store st.partyI st.partyN
      let pr := round1Proceed C r batch
      ({ st with phase := .round2 pr.2 [],
                 queue := st.queue ++ [⟨pr.1.sender, pr.1.receiver, .two pr.1.body⟩] },
       .ok)
    else (st, .ok)
  | .round2 r2 store =>
    if storeReady store st.partyN then
      let batch := storeExtract store st.partyI st.partyN
      match round2Proceed C r2 batch with
      | .ok res => ({ st with phase := .finished res }, .ok)
      | .err (.partiesDidntRevealItsSeed l) => (st, .fail (.partiesDidntReveal l))
      | .panic => (st, .panicked)
    else (st, .ok)
  | .finished _ => (st, .ok)

/-- `handle_incoming`: push a round-matching message into the live store,
reporting push rejections and wrong-round messages as non-critical errors. -/
def m2Handle (msg : Msg M2Body) (st : M2State) : M2State × Option M2Err :=
  match st.phase, msg.body with
  | .round1 r store, .one m1 =>
    match storePush store st.partyI st.partyN msg.sender m1 with
    | some store1 => ({ st with phase := .round1 r store1 }, none)
    | none => (st, some .storeRejected)
  | .round2 r2 store, .two m2 =>
    match storePush store st.partyI st.partyN msg.sender m2 with
    | some store1 => ({ st with phase := .round2 r2 store1 }, none)
    | none => (st, some .storeRejected)
  | _, _ => (st, some .wrongRound)

/-- The senders still missing from the live store: the peers with no entry,
ascending. -/
def m2Missing (st : M2State) : List Nat :=
  match st.phase with
  | .round1 _ store => (peersOf st.partyI st.partyN).filter (fun j => (store.lookup j).isNone)
  | .round2 _ store => (peersOf st.partyI st.partyN).filter (fun j => (store.lookup j).isNone)
  | _ => []

/-- `round_timeout_reached`: the protocol-specific error carrying the missing
contributors (`ProceedError::PartiesDidntRevealItsSeed`, rounds.rs lines
195-198). -/
def m2TimeoutReached (st : M2State) : M2Err :=
  .partiesDidntReveal (m2Missing st)

/-- The full Musig2 instance as a `SM` bundle (spec sections 4.1, 4.5; the
round-timeout duration is an arbitrary concrete deadline, represented
operationally by the schedule's timeout events). -/
def m2SM (C : MusigCrypto) : SM M2State M2Body M2Err SignResult where
  partyInd st := st.partyI
  currentRound := m2Round
  wantsToProceed := m2Wants
  proceed := m2Proceed C
  handleIncoming := m2Handle
  messageQueue st := st.queue
  drainQueue st := { st with queue := [] }
  roundTimeout _ := some 60
  roundTimeoutReached := m2TimeoutReached
  isFinished st := match st.phase with | .finished _ => true | _ => false
  pickOutput st := match st.phase with | .finished res => some (.ok res) | _ => none
  isCritical := M2Err.critical

/-- Initial instance state for party `i` of `n` (`Musig2Instance::with_fixed_seed`). -/
def m2Init (i n : Nat) (kp : KeyPair) (seed : Nat) (msg : List Nat) : M2State :=
  ⟨i, n, .prep ⟨i, kp, msg, seed⟩, []⟩

/-- The party list of the determinism scenario: parties `1..=n` with their
key pairs and fixed seeds, all over the same message. -/
def mkParties (kps : List (KeyPair × Nat)) (msg : List Nat) : List M2State :=
  ((List.range' 1 kps.length).zip kps).map
    (fun p => m2Init p.1 kps.length p.2.1 p.2.2 msg)

/-- A concrete crypto bundle used to instantiate witnesses: all operations are
small arithmetic functions and verification always succeeds. -/
def demoCrypto : MusigCrypto where
  sign kp seed := ([seed + kp.publicKey], seed * 2 + 1)
  keyAggregationN pks idx := ⟨pks.sum + idx, idx + 1⟩
  signPrime st msg pks _nonces idx := (st + pks.sum + idx, st + msg.sum + 1)
  computeGlobalParams st msg pks _nonces _idx := (st + msg.sum, pks.sum + 7)
  signDoublePrime st2 frags := st2 + frags.sum
  verify _s _rx _xt _c := true
  xCoor g := g

/-- Like `demoCrypto` but with an always-failing verification, exercising the
failure branch of `Round2::proceed`. -/
def failCrypto : MusigCrypto :=
  { demoCrypto with verify := fun _s _rx _xt _c => false }

/-- Discriminator: is a `Round2::proceed` outcome an error return? -/
def ProceedOut.isErrOut {α : Type} : ProceedOut α → Bool
  | .err _ => true
  | _ => false

/-! ## Helper lemmas -/

/-- Once the loop index has reached `curInd`, the insertion condition
`i + 1 == cur_ind` can no longer fire. -/
theorem buildPksLoop_of_le (own : GE) (curInd : Nat) :
    ∀ (l : List GE) (i : Nat), curInd ≤ i → buildPksLoop own curInd i l = l := by
  intro l
  induction l with
  | nil => intro i _; rfl
  | cons pk rest ih =>
    intro i hi
    simp only [buildPksLoop]
    rw [if_neg (by omega)]
    rw [ih (i + 1) (by omega)]

/-- If `curInd` lies beyond the remaining messages, the loop never inserts. -/
theorem buildPksLoop_of_gt (own : GE) (curInd : Nat) :
    ∀ (l : List GE) (i : Nat), i + l.length < curInd → buildPksLoop own curInd i l = l := by
  intro l
  induction l with
  | nil => intro i _; rfl
  | cons pk rest ih =>
    intro i hi
    simp only [buildPksLoop]
    rw [if_neg (by simp at hi; omega)]
    rw [ih (i + 1) (by simp at hi; omega)]

/-- When `curInd` falls inside the remaining messages, the loop inserts the
party's own key at relative position `curInd - 1 - i`. -/
theorem buildPksLoop_insert (own : GE) (curInd : Nat) :
    ∀ (l : List GE) (i : Nat), i < curInd → curInd ≤ i + l.length →
      buildPksLoop own curInd i l =
        l.take (curInd - 1 - i) ++ own :: l.drop (curInd - 1 - i) := by
  intro l
  induction l with
  | nil => intro i h1 h2; simp at h2; omega
  | cons pk rest ih =>
    intro i h1 h2
    simp only [buildPksLoop]
    by_cases hc : i + 1 = curInd
    · rw [if_pos hc]
      have hz : curInd - 1 - i = 0 := by omega
      rw [hz, buildPksLoop_of_le own curInd rest (i + 1) (by omega)]
      simp
    · rw [if_neg hc]
      have h1' : i + 1 < curInd := by omega
      have h2' : curInd ≤ i + 1 + rest.length := by simp at h2; omega
      rw [ih (i + 1) h1' h2']
      obtain ⟨k, hk⟩ : ∃ k, curInd - 1 - i = k + 1 := ⟨curInd - 2 - i, by omega⟩
      have hk' : curInd - 1 - (i + 1) = k := by omega
      rw [hk, hk']
      simp

/-- Characterisation of the full pks construction of `Round1::proceed`: for a
valid 1-based party index, the own key is inserted at position `curInd - 1`
with the received keys kept in order around it. -/
theorem buildPks_eq (own : GE) (curInd : Nat) (l : List GE)
    (h1 : 1 ≤ curInd) (h2 : curInd ≤ l.length + 1) :
    buildPks own curInd l = l.take (curInd - 1) ++ own :: l.drop (curInd - 1) := by
  unfold buildPks
  by_cases hc : curInd ≤ l.length
  · rw [if_neg (by omega)]
    have := buildPksLoop_insert own curInd l 0 (by omega) (by omega)
    simpa using this
  · have hce : curInd = l.length + 1 := by omega
    rw [if_pos (by omega)]
    rw [buildPksLoop_of_gt own curInd l 0 (by omega)]
    have ht : l.take (curInd - 1) = l := List.take_of_length_le (by omega)
    have hd : l.drop (curInd - 1) = [] := List.drop_eq_nil_of_le (by omega)
    rw [ht, hd]

/-- A successful lookup means the key occurs among the stored senders. -/
theorem lookup_isSome_mem {β : Type} :
    ∀ (l : List (Nat × β)) (j : Nat), (l.lookup j).isSome = true → j ∈ l.map Prod.fst := by
  intro l
  induction l with
  | nil => intro j h; simp [List.lookup] at h
  | cons p rest ih =>
    intro j h
    simp only [List.lookup] at h
    by_cases hj : j = p.1
    · simp [hj]
    · simp only [List.map_cons, List.mem_cons]
      right
      apply ih
      rw [show (j == p.1) = false from beq_false_of_ne hj] at h
      exact h

/-- Removing one occurring element from a duplicate-free list shortens it by
exactly one. -/
theorem filter_ne_length :
    ∀ (l : List Nat) (x : Nat), l.Nodup → x ∈ l →
      (l.filter (fun j => j != x)).length = l.length - 1 := by
  intro l
  induction l with
  | nil => intro x _ hx; simp at hx
  | cons a t ih =>
    intro x hnd hx
    have hnd' : t.Nodup := (List.nodup_cons.mp hnd).2
    by_cases ha : a = x
    · subst ha
      have hnin : a ∉ t := (List.nodup_cons.mp hnd).1
      have : t.filter (fun j => j != a) = t := by
        rw [List.filter_eq_self]
        intro b hb
        simp only [bne_iff_ne, ne_eq, decide_eq_true_eq]
        intro hba
        exact hnin (hba ▸ hb)
      simp [this]
    · have hxt : x ∈ t := by
        rcases List.mem_cons.mp hx with h | h
        · exact absurd h.symm ha
        · exact h
      have hne : (a != x) = true := bne_iff_ne.mpr ha
      have hlen : 1 ≤ t.length := List.length_pos.mpr (List.ne_nil_of_mem hxt)
      simp only [List.filter_cons, hne, if_pos]
      simp only [List.length_cons, ih x hnd' hxt]
      omega

/-- There are exactly `n - 1` peers of a valid party index. -/
theorem peersOf_length (selfI n : Nat) (h1 : 1 ≤ selfI) (h2 : selfI ≤ n) :
    (peersOf selfI n).length = n - 1 := by
  unfold peersOf
  have hmem : selfI ∈ List.range' 1 n := by
    rw [List.mem_range'_1]
    omega
  have := filter_ne_length (List.range' 1 n) selfI (List.nodup_range' 1 n) hmem
  simpa using this

/-- Peers are duplicate-free. -/
theorem peersOf_nodup (selfI n : Nat) : (peersOf selfI n).Nodup :=
  (List.nodup_range' 1 n).filter _

/-! ## Claim theorems -/

/-- Claim C1, counterexample: at a concrete fragment batch on which the
verification fails, `Round2::proceed` PANICS (the `assert!` at rounds.rs lines
150-156) — its result is not an error return of any kind, so the round does
not "return a critical protocol error as its result" as the claim states. -/
theorem round2_failed_verification_panics :
    round2Proceed failCrypto ⟨1, 5, 7, 3, ⟨2, 20⟩, ⟨11, 2⟩⟩ [⟨4⟩, ⟨6⟩] = ProceedOut.panic ∧
    (round2Proceed failCrypto ⟨1, 5, 7, 3, ⟨2, 20⟩, ⟨11, 2⟩⟩ [⟨4⟩, ⟨6⟩]).isErrOut = false := by
  exact ⟨by decide, by decide⟩

/-- Claim C1, amended: when verification of the aggregate signature fails,
`Round2::proceed` panics via its `assert!` rather than returning an error; in
particular the protocol never returns a `SignResult` whose signature does not
verify — every `Ok` return implies `verify(s, r.x, X_tilde, commit)`
succeeded. -/
theorem round2_ok_implies_verified :
    ∀ (C : MusigCrypto) (r2 : Round2St) (input : List MessageRound2),
    (∀ res, round2Proceed C r2 input = ProceedOut.ok res →
       C.verify res.s (C.xCoor res.r) r2.keyAgg.Xtilde r2.commit = true) ∧
    (C.verify (C.signDoublePrime r2.state2 (input.map (fun m => m.signFragment)))
         (C.xCoor r2.r) r2.keyAgg.Xtilde r2.commit = false →
       round2Proceed C r2 input = ProceedOut.panic) := by
  intro C r2 input
  constructor
  · intro res h
    simp only [round2Proceed] at h
    split at h
    · rename_i hv
      cases h
      simpa using hv
    · cases h
  · intro hv
    simp only [round2Proceed]
    rw [if_neg (by simp [hv])]

/-- Concrete `Round1` state used by witnesses: party 2 of 3. -/
def r1w : Round1St := ⟨2, 3, ⟨1, 10⟩, [9]⟩

/-- Concrete `Round1` peer batch used by witnesses (senders 1 and 3, in
ascending order). -/
def inW : List MessageRound1 := [⟨[5], [9], 20⟩, ⟨[6], [9], 30⟩]

/-- Witness for `round2_ok_implies_verified` at a concrete verified batch. -/
theorem round2_ok_implies_verified_witness :
    round2Proceed demoCrypto ⟨1, 5, 7, 3, ⟨2, 20⟩, ⟨11, 2⟩⟩ [⟨4⟩, ⟨6⟩] =
      ProceedOut.ok ⟨7, 13, 5⟩ ∧
    demoCrypto.verify (13 : FE) (demoCrypto.xCoor 7) (11 : GE) (5 : BInt) = true :=
  ⟨by decide,
   (round2_ok_implies_verified demoCrypto ⟨1, 5, 7, 3, ⟨2, 20⟩, ⟨11, 2⟩⟩ [⟨4⟩, ⟨6⟩]).1
     ⟨7, 13, 5⟩ (by decide)⟩

/-- Claim C6: for a valid party index `i ∈ 1..=n` and a batch of `n - 1`
`Round1` peer messages in ascending sender order, `Round1::proceed` builds the
full public-key list with the party's own key at position `i - 1` and the
peers' keys around it in their original order; the list has length `n`, and
the key-aggregation material is computed from exactly this list with party
index `i - 1`. -/
theorem round1_pks_construction :
    ∀ (C : MusigCrypto) (r1 : Round1St) (input : List MessageRound1) (n : Nat),
    1 ≤ r1.myInd → r1.myInd ≤ n → input.length = n - 1 →
    buildPks r1.keyPair.publicKey r1.myInd (input.map (fun m => m.pubkey)) =
        (input.map (fun m => m.pubkey)).take (r1.myInd - 1) ++
          r1.keyPair.publicKey :: (input.map (fun m => m.pubkey)).drop (r1.myInd - 1) ∧
    (buildPks r1.keyPair.publicKey r1.myInd (input.map (fun m => m.pubkey))).length = n ∧
    (round1Proceed C r1 input).2.keyAgg =
      C.keyAggregationN
        (buildPks r1.keyPair.publicKey r1.myInd (input.map (fun m => m.pubkey)))
        (r1.myInd - 1) := by
  intro C r1 input n h1 h2 h3
  have hlen : (input.map (fun m => m.pubkey)).length = n - 1 := by simp [h3]
  have hch := buildPks_eq r1.keyPair.publicKey r1.myInd
    (input.map (fun m => m.pubkey)) h1 (by omega)
  refine ⟨hch, ?_, rfl⟩
  rw [hch]
  simp only [List.length_append, List.length_take, List.length_cons, List.length_drop, hlen]
  omega

/-- Witness for `round1_pks_construction`: party 2 of 3 with two peer
messages. -/
theorem round1_pks_construction_witness :
    buildPks r1w.keyPair.publicKey r1w.myInd (inW.map (fun m => m.pubkey)) =
        (inW.map (fun m => m.pubkey)).take (r1w.myInd - 1) ++
          r1w.keyPair.publicKey :: (inW.map (fun m => m.pubkey)).drop (r1w.myInd - 1) ∧
    (buildPks r1w.keyPair.publicKey r1w.myInd (inW.map (fun m => m.pubkey))).length = 3 ∧
    (round1Proceed demoCrypto r1w inW).2.keyAgg =
      demoCrypto.keyAggregationN
        (buildPks r1w.keyPair.publicKey r1w.myInd (inW.map (fun m => m.pubkey)))
        (r1w.myInd - 1) :=
  round1_pks_construction demoCrypto r1w inW 3 (by decide) (by decide) (by decide)

/-- Discriminator: is a simulation outcome an error return (`Result::Err`)? -/
def SimStep.isErrStep {α E : Type} : SimStep α E → Bool
  | .err _ => true
  | _ => false

/-- A contract-violating state machine: `is_finished()` is `true` while
`pick_output()` is `None` (unit state, messages, errors and output). -/
def badSM : SM Unit Unit Unit Unit where
  partyInd _ := 1
  currentRound _ := 0
  wantsToProceed _ := false
  proceed s := (s, .ok)
  handleIncoming _ s := (s, none)
  messageQueue _ := []
  drainQueue s := s
  roundTimeout _ := none
  roundTimeoutReached _ := ()
  isFinished _ := true
  pickOutput _ := none
  isCritical _ := false

/-- A context for `badSM` with the state slot filled. -/
def badCtx : ACtx Unit Unit Unit Unit := ⟨some (), none, fun _ => .eof, 0, [], [], []⟩

/-- Claim C2, counterexample: on a finished-but-no-output machine the
Simulation Executor does not report an error to its caller — its
`finish_if_possible` PANICS via
`.expect("is_finished == true, but pick_output == None")`
(simulation.rs line 251), which is not an error return of any category. -/
theorem sim_finished_no_output_panics :
    (simFinishIfPossible badSM [(), ()]).1 = SimStep.panicked PanicKind.expectPickOutput ∧
    ((simFinishIfPossible badSM [(), ()]).1).isErrStep = false := by
  exact ⟨by decide, by decide⟩

/-- Claim C2, amended: when `is_finished()` is `true` but `pick_output()`
returns `None`, the Async Executor returns the distinct
`BadStateMachine(ProtocolFinishedButNoResult)` error to its caller, while the
Simulation Executor panics with the descriptive expect message instead of
returning an error — neither executor silently swallows the condition, but
only the async executor reports it as an error value. -/
theorem finished_but_no_output_reporting :
    (∀ (S B IErr E O : Type) (m : SM S B E O) (c : ACtx S B IErr E) (s : S),
      c.st = some s → m.isFinished s = true → m.pickOutput s = none →
      (aFinishIfPossible m c).2 =
        some (Except.error (AErr.badStateMachine BadSMReason.protocolFinishedButNoResult))) ∧
    (∀ (S B E O : Type) (m : SM S B E O) (s : S) (rest : List S),
      m.isFinished s = true → rest.all (fun p => m.isFinished p) = true →
      m.pickOutput s = none →
      (simFinishIfPossible m (s :: rest)).1 = SimStep.panicked PanicKind.expectPickOutput) := by
  constructor
  · intro S B IErr E O m c s hst hfin hpick
    simp [aFinishIfPossible, hst, hfin, hpick]
  · intro S B E O m s rest hfin hall hpick
    have hany : (s :: rest).any (fun p => m.isFinished p) = true := by simp [hfin]
    have hall' : (s :: rest).all (fun p => m.isFinished p) = true := by
      simp only [List.all_cons, hfin, hall, Bool.and_self]
    simp [simFinishIfPossible, hany, hall', collectOutputs, hpick]

/-- Witness for `finished_but_no_output_reporting` on the concrete
contract-violating machine. -/
theorem finished_but_no_output_reporting_witness :
    (aFinishIfPossible badSM badCtx).2 =
      some (Except.error (AErr.badStateMachine BadSMReason.protocolFinishedButNoResult)) ∧
    (simFinishIfPossible badSM [(), ()]).1 = SimStep.panicked PanicKind.expectPickOutput :=
  ⟨finished_but_no_output_reporting.1 Unit Unit Unit Unit Unit badSM badCtx () rfl rfl rfl,
   finished_but_no_output_reporting.2 Unit Unit Unit Unit badSM () [()] rfl (by decide) rfl⟩

/-- A machine whose completion status and party index are read off its
state, used to exercise the partial-completion paths. -/
def halfSM : SM (Nat × Bool) Unit Unit Unit where
  partyInd s := s.1
  currentRound _ := 0
  wantsToProceed _ := false
  proceed s := (s, .ok)
  handleIncoming _ s := (s, none)
  messageQueue _ := []
  drainQueue s := s
  roundTimeout _ := none
  roundTimeoutReached _ := ()
  isFinished s := s.2
  pickOutput s := if s.2 then some (.ok ()) else none
  isCritical _ := false

/-- Claim C8: when some but not all parties report `is_finished()`, the
simulation's `finish_if_possible` logs the protocol-inconsistency warning
listing the finished and unfinished party indices and signals the loop to
continue (`Ok(None)`); and a successful result is produced only when every
party is finished. -/
theorem sim_partial_finish_warns_and_continues :
    ∀ (S B E O : Type) (m : SM S B E O) (parties : List S),
    (parties.any (fun p => m.isFinished p) = true →
     parties.all (fun p => m.isFinished p) = false →
     simFinishIfPossible m parties =
       (SimStep.ok none,
        [SimLog.warnNotAllFinished
          ((parties.filter (fun p => m.isFinished p)).map m.partyInd)
          ((parties.filter (fun p => !(m.isFinished p))).map m.partyInd)])) ∧
    (∀ res lg, simFinishIfPossible m parties = (SimStep.ok (some res), lg) →
      parties.all (fun p => m.isFinished p) = true) := by
  intro S B E O m parties
  constructor
  · intro hany hall
    simp [simFinishIfPossible, hany, hall]
  · intro res lg h
    by_cases hany : parties.any (fun p => m.isFinished p) = true
    · by_cases hall : parties.all (fun p => m.isFinished p) = true
      · exact hall
      · exfalso
        simp [simFinishIfPossible, hany, hall] at h
    · exfalso
      simp [simFinishIfPossible, hany] at h

/-- Witness for `sim_partial_finish_warns_and_continues`: two parties, one
finished, and separately a fully finished pair. -/
theorem sim_partial_finish_warns_and_continues_witness :
    simFinishIfPossible halfSM [(1, true), (2, false)] =
      (SimStep.ok none, [SimLog.warnNotAllFinished [1] [2]]) ∧
    ([((1 : Nat), true), ((2 : Nat), true)].all (fun p => halfSM.isFinished p) = true) := by
  constructor
  · have := (sim_partial_finish_warns_and_continues (Nat × Bool) Unit Unit Unit halfSM
      [(1, true), (2, false)]).1 (by decide) (by decide)
    simpa using this
  · exact (sim_partial_finish_warns_and_continues (Nat × Bool) Unit Unit Unit halfSM
      [(1, true), (2, true)]).2 [(), ()] [] (by decide)

/-- A machine whose `handle_incoming` always returns a critical error
(`E = Bool`, with criticality being the error value itself). -/
def critSM : SM Nat Unit Bool Unit where
  partyInd s := s
  currentRound _ := 0
  wantsToProceed _ := false
  proceed s := (s, .ok)
  handleIncoming _ s := (s, some true)
  messageQueue _ := []
  drainQueue s := s
  roundTimeout _ := none
  roundTimeoutReached _ := false
  isFinished _ := false
  pickOutput _ := none
  isCritical e := e

/-- A machine whose `handle_incoming` always succeeds and never changes the
state. -/
def meekSM : SM Nat Unit Bool Unit where
  partyInd s := s
  currentRound _ := 0
  wantsToProceed _ := false
  proceed s := (s, .ok)
  handleIncoming _ s := (s, none)
  messageQueue _ := []
  drainQueue s := s
  roundTimeout _ := none
  roundTimeoutReached _ := false
  isFinished _ := false
  pickOutput _ := none
  isCritical e := e

/-- Claim C9, counterexample: with a machine whose `handle_incoming` returns
a critical error, the scan of the frozen pull aborts after the first
delivered message, so the second broadcast message — although it satisfies
the addressing rule — is never fed to `handle_incoming`, refuting the claimed
"if and only if". -/
theorem delivery_iff_fails_on_critical_abort :
    (simPartyHandleIncoming critSM 1 [⟨2, none, ()⟩, ⟨3, none, ()⟩]).handled =
      [⟨2, none, ()⟩] ∧
    shouldSkip 1 (⟨3, none, ()⟩ : Msg Unit) = false := by
  exact ⟨by decide, by decide⟩

/-- Claim C9, amended: the skip test of `Party::handle_incoming` accepts a
message exactly when it is addressed to the party or is a broadcast from
another party; and as long as no critical error aborts the scan, the messages
fed to `handle_incoming` are exactly those of the frozen pull passing this
rule, in order.  (A critical error returns early, leaving later deliverable
messages unprocessed.) -/
theorem delivery_rule_without_critical_errors :
    ∀ (S B E O : Type) (m : SM S B E O) (s : S) (msgs : List (Msg B)),
      (∀ mg s0, m.partyInd (m.handleIncoming mg s0).1 = m.partyInd s0) →
      (∀ msg : Msg B,
        shouldSkip (m.partyInd s) msg = false ↔
          (msg.receiver = some (m.partyInd s) ∨
           (msg.receiver = none ∧ msg.sender ≠ m.partyInd s))) ∧
      ((simPartyHandleIncoming m s msgs).crit = none →
        (simPartyHandleIncoming m s msgs).handled =
          msgs.filter (fun msg => !(shouldSkip (m.partyInd s) msg))) := by
  intro S B E O m s msgs hstable
  constructor
  · intro msg
    cases hr : msg.receiver with
    | none => simp [shouldSkip, hr]
    | some j =>
      simp [shouldSkip, hr]
      exact eq_comm
  · induction msgs generalizing s with
    | nil => intro _; rfl
    | cons msg rest ih =>
      intro hcrit
      by_cases hskip : shouldSkip (m.partyInd s) msg = true
      · simp only [simPartyHandleIncoming, hskip, if_pos] at hcrit ⊢
        rw [List.filter_cons_of_neg (by simp [hskip])]
        exact ih s hcrit
      · have hskip' : shouldSkip (m.partyInd s) msg = false := by
          simpa using hskip
        simp only [simPartyHandleIncoming, hskip', Bool.false_eq_true, if_neg,
          not_false_eq_true] at hcrit ⊢
        cases hh : (m.handleIncoming msg s).2 with
        | none =>
          simp only [hh] at hcrit ⊢
          rw [List.filter_cons_of_pos (by simp [hskip'])]
          have hst := hstable msg s
          have := ih (m.handleIncoming msg s).1 (by simpa [hst] using hcrit)
          simp only [hst] at this
          simp [this]
        | some e =>
          by_cases hc : m.isCritical e = true
          · simp only [hh, hc, if_pos] at hcrit
            cases hcrit
          · have hc' : m.isCritical e = false := by simpa using hc
            simp only [hh, hc', Bool.false_eq_true, if_neg, not_false_eq_true] at hcrit ⊢
            rw [List.filter_cons_of_pos (by simp [hskip'])]
            have hst := hstable msg s
            have := ih (m.handleIncoming msg s).1 (by simpa [hst] using hcrit)
            simp only [hst] at this
            simp [this]

/-- Witness for `delivery_rule_without_critical_errors`: a benign machine,
one broadcast from a peer, one self-broadcast. -/
theorem delivery_rule_without_critical_errors_witness :
    (shouldSkip (meekSM.partyInd 1) (⟨2, none, ()⟩ : Msg Unit) = false ↔
      ((⟨2, none, ()⟩ : Msg Unit).receiver = some (meekSM.partyInd 1) ∨
       ((⟨2, none, ()⟩ : Msg Unit).receiver = none ∧
        (⟨2, none, ()⟩ : Msg Unit).sender ≠ meekSM.partyInd 1))) ∧
    (simPartyHandleIncoming meekSM 1 [⟨2, none, ()⟩, ⟨1, none, ()⟩]).handled =
      [⟨2, none, ()⟩, ⟨1, none, ()⟩].filter
        (fun msg => !(shouldSkip (meekSM.partyInd 1) msg)) :=
  ⟨(delivery_rule_without_critical_errors Nat Unit Bool Unit meekSM 1
      [⟨2, none, ()⟩, ⟨1, none, ()⟩] (fun _ _ => rfl)).1 ⟨2, none, ()⟩,
   (delivery_rule_without_critical_errors Nat Unit Bool Unit meekSM 1
      [⟨2, none, ()⟩, ⟨1, none, ()⟩] (fun _ _ => rfl)).2 (by decide)⟩

/-- A panic coming out of `proceed_if_needed` is always a propagated
state-machine panic, never the two-parties assertion. -/
theorem simPartyProceed_panic {S B E O : Type} (m : SM S B E O) (s : S) (k : PanicKind) :
    (simPartyProceed m s).2.1 = SimStep.panicked k → k = PanicKind.smPanic := by
  intro h
  simp only [simPartyProceed] at h
  split at h
  · split at h
    · cases h
    · split at h
      · cases h
      · cases h
    · cases h; rfl
  · cases h

/-- The proceed phase can only panic with a propagated state-machine panic. -/
theorem simProceedPhase_panic {S B E O : Type} (m : SM S B E O) :
    ∀ (parties : List S) (k : PanicKind) (lg : List (SimLog E)),
      simProceedPhase m parties = PhaseRes.panicked k lg → k = PanicKind.smPanic := by
  intro parties
  induction parties with
  | nil => intro k lg h; cases h
  | cons s rest ih =>
    intro k lg h
    simp only [simProceedPhase] at h
    split at h
    · cases h
    · rename_i k0 heq
      cases h
      exact simPartyProceed_panic m s k heq
    · split at h
      · cases h
      · cases h
      · rename_i k0 logs0 heq
        cases h
        exact ih _ _ heq

/-- The handle phase never panics at all. -/
theorem simHandlePhase_no_panic {S B E O : Type} (m : SM S B E O) (frozen : List (Msg B)) :
    ∀ (parties : List S) (k : PanicKind) (lg : List (SimLog E)),
      simHandlePhase m frozen parties = PhaseRes.panicked k lg → False := by
  intro parties
  induction parties with
  | nil => intro k lg h; cases h
  | cons s rest ih =>
    intro k lg h
    simp only [simHandlePhase] at h
    split at h
    · cases h
    · split at h
      · cases h
      · cases h
      · rename_i k0 logs0 heq
        cases h
        exact ih _ _ heq

/-- Output collection can only panic with the expect-message panic. -/
theorem collectOutputs_panic {S B E O : Type} (m : SM S B E O) :
    ∀ (parties : List S) (k : PanicKind),
      collectOutputs m parties = SimStep.panicked k → k = PanicKind.expectPickOutput := by
  intro parties
  induction parties with
  | nil => intro k h; cases h
  | cons s rest ih =>
    intro k h
    simp only [collectOutputs] at h
    split at h
    · cases h; rfl
    · cases h
    · split at h
      · cases h
      · cases h
      · rename_i k0 heq
        cases h
        exact ih _ heq

/-- The completion check can only panic with the expect-message panic. -/
theorem simFinishIfPossible_panic {S B E O : Type} (m : SM S B E O)
    (parties : List S) (k : PanicKind) (lg : List (SimLog E)) :
    simFinishIfPossible m parties = (SimStep.panicked k, lg) →
      k = PanicKind.expectPickOutput := by
  intro h
  simp only [simFinishIfPossible] at h
  split at h
  · cases h
  · split at h
    · split at h
      · cases h
      · cases h
      · rename_i k0 heq
        cases h
        exact collectOutputs_panic m parties k heq
    · cases h

/-- The simulation loop never raises the two-parties assertion panic. -/
theorem simLoop_no_assert {S B E O : Type} (m : SM S B E O) :
    ∀ (fuel : Nat) (parties : List S) (pull : List (Msg B)) (logs : List (SimLog E)),
      (simLoop m fuel parties pull logs).1 =
        some (SimStep.panicked PanicKind.assertTwoParties) → False := by
  intro fuel
  induction fuel with
  | zero => intro parties pull logs h; cases h
  | succ fuel ih =>
    intro parties pull logs h
    simp only [simLoop] at h
    split at h
    · simp at h
    · rename_i k0 lg0 heq
      exact simHandlePhase_no_panic m pull parties k0 lg0 heq
    · split at h
      · simp at h
      · rename_i k0 lg0 heq
        have hk := simProceedPhase_panic m _ k0 lg0 heq
        have hk2 : k0 = PanicKind.assertTwoParties := by simpa using h
        rw [hk] at hk2
        cases hk2
      · split at h
        · exact ih _ _ _ h
        · simp at h
        · simp at h
        · rename_i k0 lgf heq
          have hk := simFinishIfPossible_panic m _ k0 lgf heq
          have hk2 : k0 = PanicKind.assertTwoParties := by simpa using h
          rw [hk] at hk2
          cases hk2

/-- Claim C10: `Simulation::run` panics via its entry assertion — before
driving any party or delivering any message — exactly when fewer than two
parties were added; with at least two parties that assertion can never fire,
whatever the machines do and however long the run. -/
theorem sim_run_two_party_assertion :
    ∀ (S B E O : Type) (m : SM S B E O) (fuel : Nat) (parties : List S),
    (parties.length < 2 →
      simRun m fuel parties = (some (SimStep.panicked PanicKind.assertTwoParties), [])) ∧
    (2 ≤ parties.length →
      (simRun m fuel parties).1 ≠ some (SimStep.panicked PanicKind.assertTwoParties)) := by
  intro S B E O m fuel parties
  constructor
  · intro hlt
    unfold simRun
    rw [if_pos hlt]
  · intro hge h
    simp only [simRun] at h
    rw [if_neg (by omega)] at h
    split at h
    · simp at h
    · rename_i k0 lg0 heq
      have hk := simProceedPhase_panic m _ k0 lg0 heq
      have hk2 : k0 = PanicKind.assertTwoParties := by simpa using h
      rw [hk] at hk2
      cases hk2
    · split at h
      · exact simLoop_no_assert m fuel _ _ _ h
      · simp at h
      · simp at h
      · rename_i k0 lgf heq
        have hk := simFinishIfPossible_panic m _ k0 lgf heq
        have hk2 : k0 = PanicKind.assertTwoParties := by simpa using h
        rw [hk] at hk2
        cases hk2

/-- Witness for `sim_run_two_party_assertion`: one party panics the
assertion, two parties never do. -/
theorem sim_run_two_party_assertion_witness :
    simRun badSM 3 [()] = (some (SimStep.panicked PanicKind.assertTwoParties), []) ∧
    (simRun halfSM 3 [(1, true), (2, true)]).1 ≠
      some (SimStep.panicked PanicKind.assertTwoParties) :=
  ⟨(sim_run_two_party_assertion Unit Unit Unit Unit badSM 3 [()]).1 (by decide),
   (sim_run_two_party_assertion (Nat × Bool) Unit Unit Unit halfSM 3
      [(1, true), (2, true)]).2 (by decide)⟩

/-- Claim C5: at each of the four protocol-error call sites — the async
executor's `handle_incoming` and `proceed_if_needed`, and the simulation's
`proceed_if_needed` and `handle_incoming` — an error returned by the state
machine is classified by `is_critical()` on the error value itself: critical
errors abort the step with the error surfaced, non-critical errors are
reported to the watcher / observer log and the step succeeds. -/
theorem critical_split_uniform :
    (∀ (S B IErr E O : Type) (m : SM S B E O) (c : ACtx S B IErr E) (s s' : S)
       (mg : Msg B) (e : E),
      c.st = some s → c.events c.evIx = InEvent.msg mg →
      m.handleIncoming mg s = (s', some e) →
      (m.isCritical e = true → (aHandleIncoming m c).2 = some (AErr.handleIncoming e)) ∧
      (m.isCritical e = false → (aHandleIncoming m c).2 = none ∧
        (aHandleIncoming m c).1.wlog =
          c.wlog ++ [WEvent.nonCritical .whenHandleIncoming e])) ∧
    (∀ (S B IErr E O : Type) (m : SM S B E O) (c : ACtx S B IErr E) (s s' : S) (e : E),
      c.st = some s → m.wantsToProceed s = true →
      m.proceed s = (s', ProceedRes.fail e) →
      (m.isCritical e = true → (aProceedIfNeeded m c).2 = some (AErr.proceed e)) ∧
      (m.isCritical e = false → (aProceedIfNeeded m c).2 = none ∧
        (aProceedIfNeeded m c).1.wlog = c.wlog ++ [WEvent.nonCritical .whenProceed e])) ∧
    (∀ (S B E O : Type) (m : SM S B E O) (s s' : S) (e : E),
      m.wantsToProceed s = true → m.proceed s = (s', ProceedRes.fail e) →
      (m.isCritical e = true → (simPartyProceed m s).2.1 = SimStep.err e) ∧
      (m.isCritical e = false → (simPartyProceed m s).2.1 = SimStep.ok () ∧
        (simPartyProceed m s).2.2 = [SimLog.nonCritical e])) ∧
    (∀ (S B E O : Type) (m : SM S B E O) (s s' : S) (mg : Msg B) (e : E),
      shouldSkip (m.partyInd s) mg = false → m.handleIncoming mg s = (s', some e) →
      (m.isCritical e = true → (simPartyHandleIncoming m s [mg]).crit = some e) ∧
      (m.isCritical e = false → (simPartyHandleIncoming m s [mg]).crit = none ∧
        (simPartyHandleIncoming m s [mg]).logs = [SimLog.nonCritical e])) := by
  refine ⟨?_, ?_, ?_, ?_⟩
  · intro S B IErr E O m c s s' mg e hst hev hh
    constructor
    · intro hc
      simp [aHandleIncoming, hst, hev, hh, hc]
    · intro hc
      constructor
      · simp [aHandleIncoming, hst, hev, hh, hc]
      · simp [aHandleIncoming, hst, hev, hh, hc]
  · intro S B IErr E O m c s s' e hst hw hp
    constructor
    · intro hc
      simp [aProceedIfNeeded, hst, hw, hp, hc]
    · intro hc
      constructor
      · simp [aProceedIfNeeded, hst, hw, hp, hc]
      · simp [aProceedIfNeeded, hst, hw, hp, hc]
  · intro S B E O m s s' e hw hp
    constructor
    · intro hc
      simp [simPartyProceed, hw, hp, hc]
    · intro hc
      constructor
      · simp [simPartyProceed, hw, hp, hc]
      · simp [simPartyProceed, hw, hp, hc]
  · intro S B E O m s s' mg e hskip hh
    constructor
    · intro hc
      simp [simPartyHandleIncoming, hskip, hh, hc]
    · intro hc
      constructor
      · simp [simPartyHandleIncoming, hskip, hh, hc]
      · simp [simPartyHandleIncoming, hskip, hh, hc]

/-- A machine over `E = Bool` whose criticality is the error value itself:
`handle_incoming` errors critically exactly for sender 2, `proceed` errors
critically exactly in state 2. -/
def flagSM : SM Nat Unit Bool Unit where
  partyInd s := s
  currentRound _ := 0
  wantsToProceed _ := true
  proceed s := (s, .fail (s == 2))
  handleIncoming mg s := (s, some (mg.sender == 2))
  messageQueue _ := []
  drainQueue s := s
  roundTimeout _ := none
  roundTimeoutReached _ := false
  isFinished _ := false
  pickOutput _ := none
  isCritical e := e

/-- Context delivering a broadcast from the critical sender 2 to `flagSM`
in state 1. -/
def cW : ACtx Nat Unit Unit Bool := ⟨some 1, none, fun _ => .msg ⟨2, none, ()⟩, 0, [], [], []⟩

/-- Witness for `critical_split_uniform`: one concrete instantiation per
call site (critical at the async sites via sender 2 / state 2 is exercised
in the first and third conjuncts, non-critical in the others). -/
theorem critical_split_uniform_witness :
    (aHandleIncoming flagSM cW).2 = some (AErr.handleIncoming true) ∧
    ((aProceedIfNeeded flagSM cW).2 = none ∧
      (aProceedIfNeeded flagSM cW).1.wlog =
        cW.wlog ++ [WEvent.nonCritical .whenProceed false]) ∧
    (simPartyProceed flagSM 2).2.1 = SimStep.err true ∧
    ((simPartyHandleIncoming flagSM 1 [⟨3, none, ()⟩]).crit = none ∧
      (simPartyHandleIncoming flagSM 1 [⟨3, none, ()⟩]).logs = [SimLog.nonCritical false]) :=
  ⟨(critical_split_uniform.1 Nat Unit Unit Bool Unit flagSM cW 1 1 ⟨2, none, ()⟩ true
      rfl rfl rfl).1 rfl,
   (critical_split_uniform.2.1 Nat Unit Unit Bool Unit flagSM cW 1 1 false
      rfl rfl rfl).2 rfl,
   (critical_split_uniform.2.2.1 Nat Unit Bool Unit flagSM 2 2 true rfl rfl).1 rfl,
   (critical_split_uniform.2.2.2 Nat Unit Bool Unit flagSM 1 1 ⟨3, none, ()⟩ false
      (by decide) rfl).2 rfl⟩

/-- Claim C3: when the round deadline elapses while the executor's loop is
waiting for an incoming message, the run terminates with
`HandleIncomingTimeout(state.round_timeout_reached())` — the state machine's
own protocol-specific error; for the Musig2 instance that error is
`PartiesDidntRevealItsSeed` listing the missing senders, which is nonempty
whenever fewer than `N - 1` messages were collected. -/
theorem timeout_yields_protocol_timeout_error :
    (∀ (S B IErr E O : Type) (m : SM S B E O) (fuel : Nat) (c : ACtx S B IErr E) (s : S),
      c.st = some s → c.events c.evIx = InEvent.timeout →
      (aLoop m (fuel + 1) c).1 =
        some (Except.error (AErr.handleIncomingTimeout (m.roundTimeoutReached s)))) ∧
    (∀ (st : M2State) (r : Round1St) (store : List (Nat × MessageRound1)),
      st.phase = M2Phase.round1 r store →
      1 ≤ st.partyI → st.partyI ≤ st.partyN → store.length < st.partyN - 1 →
      m2TimeoutReached st = M2Err.partiesDidntReveal (m2Missing st) ∧
      m2Missing st ≠ []) := by
  constructor
  · intro S B IErr E O m fuel c s hst hev
    simp only [aLoop, aHandleIncoming, hst, hev, andThen]
  · intro st r store hph h1 h2 hlen
    refine ⟨rfl, ?_⟩
    intro hemp
    simp only [m2Missing, hph] at hemp
    have hsub : peersOf st.partyI st.partyN ⊆ store.map Prod.fst := by
      intro j hj
      have hj' := List.filter_eq_nil_iff.mp hemp j hj
      apply lookup_isSome_mem
      cases hlk : store.lookup j with
      | none => exact absurd (by simp [hlk]) hj'
      | some v => simp [hlk]
    have hle :=
      (List.subperm_of_subset (peersOf_nodup st.partyI st.partyN) hsub).length_le
    rw [peersOf_length st.partyI st.partyN h1 h2] at hle
    rw [List.length_map] at hle
    omega

/-- A Musig2 party-1-of-3 state waiting in `Round1` with an empty store. -/
def stW : M2State := ⟨1, 3, .round1 ⟨1, 7, ⟨1, 10⟩, [9]⟩ [], []⟩

/-- A context for `stW` whose deadline elapses immediately. -/
def c3W : ACtx M2State M2Body Unit M2Err :=
  ⟨some stW, none, fun _ => .timeout, 0, [], [], []⟩

/-- Witness for `timeout_yields_protocol_timeout_error`: party 1 of 3 with no
collected messages times out and the error names both missing peers. -/
theorem timeout_yields_protocol_timeout_error_witness :
    (aLoop (m2SM demoCrypto) 1 c3W).1 =
      some (Except.error
        (AErr.handleIncomingTimeout ((m2SM demoCrypto).roundTimeoutReached stW))) ∧
    (m2TimeoutReached stW = M2Err.partiesDidntReveal (m2Missing stW) ∧
      m2Missing stW ≠ []) :=
  ⟨timeout_yields_protocol_timeout_error.1 M2State M2Body Unit M2Err SignResult
      (m2SM demoCrypto) 0 c3W stW rfl rfl,
   timeout_yields_protocol_timeout_error.2 stW ⟨1, 7, ⟨1, 10⟩, [9]⟩ [] rfl
      (by decide) (by decide) (by decide)⟩

/-- `proceed_if_needed` never touches the remembered round number. -/
theorem aProceedIfNeeded_curRound {S B IErr E O : Type} (m : SM S B E O)
    (c : ACtx S B IErr E) : (aProceedIfNeeded m c).1.curRound = c.curRound := by
  simp only [aProceedIfNeeded]
  split
  · rfl
  · split
    · split
      · rfl
      · rfl
      · split
        · rfl
        · rfl
    · rfl

/-- `send_outgoing` never touches the remembered round number. -/
theorem aSendOutgoing_curRound {S B IErr E O : Type} (m : SM S B E O)
    (c : ACtx S B IErr E) : (aSendOutgoing m c).1.curRound = c.curRound := by
  simp only [aSendOutgoing]
  split
  · rfl
  · split
    · rfl
    · rfl

/-- `handle_incoming` never touches the remembered round number. -/
theorem aHandleIncoming_curRound {S B IErr E O : Type} (m : SM S B E O)
    (c : ACtx S B IErr E) : (aHandleIncoming m c).1.curRound = c.curRound := by
  simp only [aHandleIncoming]
  split
  · rfl
  · split
    · split
      · rfl
      · split
        · rfl
        · rfl
    · rfl
    · rfl
    · rfl

/-- `finish_if_possible` never touches the remembered round number. -/
theorem aFinishIfPossible_curRound {S B IErr E O : Type} (m : SM S B E O)
    (c : ACtx S B IErr E) : (aFinishIfPossible m c).1.curRound = c.curRound := by
  simp only [aFinishIfPossible]
  split
  · rfl
  · split
    · rfl
    · split
      · rfl
      · rfl
      · rfl

/-- `refresh_timer` leaves the remembered round number set whenever it was
already set. -/
theorem aRefresh_curRound_pres {S B IErr E O : Type} (m : SM S B E O)
    (c : ACtx S B IErr E) (h : c.curRound.isSome = true) :
    ((aRefresh m c).1.curRound).isSome = true := by
  simp only [aRefresh]
  split
  · exact h
  · split
    · exact h
    · rfl

/-- `refresh_timer` always sets the remembered round number when the state
slot is filled. -/
theorem aRefresh_curRound_set {S B IErr E O : Type} (m : SM S B E O)
    (c : ACtx S B IErr E) (s : S) (hst : c.st = some s) :
    ((aRefresh m c).1.curRound).isSome = true ∧ (aRefresh m c).2 = none := by
  simp only [aRefresh, hst]
  split
  · rename_i heq
    exact ⟨by simp [heq], rfl⟩
  · exact ⟨rfl, rfl⟩

/-- The executor loop leaves the remembered round number set whenever it was
already set. -/
theorem aLoop_curRound_isSome {S B IErr E O : Type} (m : SM S B E O) :
    ∀ (fuel : Nat) (c : ACtx S B IErr E), c.curRound.isSome = true →
      ((aLoop m fuel c).2.curRound).isSome = true := by
  intro fuel
  induction fuel with
  | zero => intro c h; exact h
  | succ fuel ih =>
    intro c h
    simp only [aLoop]
    cases hX1 : aHandleIncoming m c with
    | mk c1 e1 =>
      have h1 : c1.curRound.isSome = true := by
        have := aHandleIncoming_curRound m c
        rw [hX1] at this
        rw [show c1.curRound = c.curRound from this]
        exact h
      cases e1 with
      | some e => simpa [andThen] using h1
      | none =>
        simp only [andThen]
        cases hX2 : aSendOutgoing m c1 with
        | mk c2 e2 =>
          have h2 : c2.curRound.isSome = true := by
            have := aSendOutgoing_curRound m c1
            rw [hX2] at this
            rw [show c2.curRound = c1.curRound from this]
            exact h1
          cases e2 with
          | some e => simpa [andThen] using h2
          | none =>
            simp only [andThen]
            cases hX3 : aRefresh m c2 with
            | mk c3 e3 =>
              have h3 : c3.curRound.isSome = true := by
                have := aRefresh_curRound_pres m c2 h2
                rw [hX3] at this
                exact this
              cases e3 with
              | some e => simpa [andThen] using h3
              | none =>
                simp only [andThen]
                cases hX4 : aProceedIfNeeded m c3 with
                | mk c4 e4 =>
                  have h4 : c4.curRound.isSome = true := by
                    have := aProceedIfNeeded_curRound m c3
                    rw [hX4] at this
                    rw [show c4.curRound = c3.curRound from this]
                    exact h3
                  cases e4 with
                  | some e => simpa [andThen] using h4
                  | none =>
                    simp only [andThen]
                    cases hX5 : aSendOutgoing m c4 with
                    | mk c5 e5 =>
                      have h5 : c5.curRound.isSome = true := by
                        have := aSendOutgoing_curRound m c4
                        rw [hX5] at this
                        rw [show c5.curRound = c4.curRound from this]
                        exact h4
                      cases e5 with
                      | some e => simpa [andThen] using h5
                      | none =>
                        simp only [andThen]
                        cases hX6 : aRefresh m c5 with
                        | mk c6 e6 =>
                          have h6 : c6.curRound.isSome = true := by
                            have := aRefresh_curRound_pres m c5 h5
                            rw [hX6] at this
                            exact this
                          cases e6 with
                          | some e => simpa [andThen] using h6
                          | none =>
                            simp only [andThen]
                            cases hX7 : aFinishIfPossible m c6 with
                            | mk c7 r7 =>
                              have h7 : c7.curRound.isSome = true := by
                                have := aFinishIfPossible_curRound m c6
                                rw [hX7] at this
                                rw [show c7.curRound = c6.curRound from this]
                                exact h6
                              cases r7 with
                              | some r => exact h7
                              | none => exact ih c7 h7

/-- A run on a fresh executor always leaves the remembered round number set:
the exhausted flag of a second call. -/
theorem aRun_sets_curRound {S B IErr E O : Type} (m : SM S B E O)
    (fuel : Nat) (c : ACtx S B IErr E) (s : S)
    (hst : c.st = some s) (hcr : c.curRound = none) :
    (((aRun m fuel c).2).curRound).isSome = true := by
  simp only [aRun, hcr, Option.isSome_none, Bool.false_eq_true, if_neg, not_false_eq_true]
  cases hX1 : aRefresh m c with
  | mk c1 e1 =>
    have hset := aRefresh_curRound_set m c s hst
    rw [hX1] at hset
    obtain ⟨h1, he1⟩ := hset
    cases e1 with
    | some e => cases he1
    | none =>
      simp only [andThen]
      cases hX2 : aProceedIfNeeded m c1 with
      | mk c2 e2 =>
        have h2 : c2.curRound.isSome = true := by
          have := aProceedIfNeeded_curRound m c1
          rw [hX2] at this
          rw [show c2.curRound = c1.curRound from this]
          exact h1
        cases e2 with
        | some e => simpa [andThen] using h2
        | none =>
          simp only [andThen]
          cases hX3 : aSendOutgoing m c2 with
          | mk c3 e3 =>
            have h3 : c3.curRound.isSome = true := by
              have := aSendOutgoing_curRound m c2
              rw [hX3] at this
              rw [show c3.curRound = c2.curRound from this]
              exact h2
            cases e3 with
            | some e => simpa [andThen] using h3
            | none =>
              simp only [andThen]
              cases hX4 : aRefresh m c3 with
              | mk c4 e4 =>
                have h4 : c4.curRound.isSome = true := by
                  have := aRefresh_curRound_pres m c3 h3
                  rw [hX4] at this
                  exact this
                cases e4 with
                | some e => simpa [andThen] using h4
                | none =>
                  simp only [andThen]
                  cases hX5 : aFinishIfPossible m c4 with
                  | mk c5 r5 =>
                    have h5 : c5.curRound.isSome = true := by
                      have := aFinishIfPossible_curRound m c4
                      rw [hX5] at this
                      rw [show c5.curRound = c4.curRound from this]
                      exact h4
                    cases r5 with
                    | some r => exact h5
                    | none => exact aLoop_curRound_isSome m fuel c5 h5

/-- Claim C4: calling `run` on an executor whose `current_round` is already
remembered returns `Exhausted` at once, with the executor state — including
its action trace, event cursor, outbox and watcher log — completely
untouched: no receive, send, proceed or state-machine interaction happens.
And a first `run` on a freshly constructed executor always leaves
`current_round` remembered, whether it succeeded or failed, so a second
`run` is exactly such an immediate-`Exhausted` call. -/
theorem run_twice_exhausted :
    (∀ (S B IErr E O : Type) (m : SM S B E O) (fuel : Nat) (c : ACtx S B IErr E) (r : Nat),
      c.curRound = some r →
      aRun m fuel c = ((some (Except.error AErr.exhausted) :
        Option (Except (AErr E IErr) O)), c)) ∧
    (∀ (S B IErr E O : Type) (m : SM S B E O) (s : S) (ev : Nat → InEvent B IErr)
       (fuel1 fuel2 : Nat),
      @aRun S B IErr E O m fuel2 (@aRun S B IErr E O m fuel1 (freshCtx s ev)).2 =
        (some (Except.error AErr.exhausted),
         (@aRun S B IErr E O m fuel1 (freshCtx s ev)).2)) := by
  have hpart1 : ∀ (S B IErr E O : Type) (m : SM S B E O) (fuel : Nat)
      (c : ACtx S B IErr E) (r : Nat), c.curRound = some r →
      aRun m fuel c = ((some (Except.error AErr.exhausted) :
        Option (Except (AErr E IErr) O)), c) := by
    intro S B IErr E O m fuel c r h
    simp [aRun, h]
  refine ⟨hpart1, ?_⟩
  intro S B IErr E O m s ev fuel1 fuel2
  have hS : (((@aRun S B IErr E O m fuel1 (freshCtx s ev)).2).curRound).isSome = true :=
    aRun_sets_curRound m fuel1 (freshCtx s ev) s rfl rfl
  obtain ⟨r, hr⟩ := Option.isSome_iff_exists.mp hS
  exact hpart1 S B IErr E O m fuel2 _ r hr

/-- Witness for `run_twice_exhausted`: a two-party Musig2 instance whose
first run times out immediately; the second run is `Exhausted` with the
context unchanged. -/
theorem run_twice_exhausted_witness :
    @aRun M2State M2Body Unit M2Err SignResult (m2SM demoCrypto) 2
        (@aRun M2State M2Body Unit M2Err SignResult (m2SM demoCrypto) 2
          (@freshCtx M2State M2Body Unit M2Err (m2Init 1 2 ⟨1, 10⟩ 3 [9])
            (fun _ => InEvent.timeout))).2 =
      (some (Except.error AErr.exhausted),
       (@aRun M2State M2Body Unit M2Err SignResult (m2SM demoCrypto) 2
          (@freshCtx M2State M2Body Unit M2Err (m2Init 1 2 ⟨1, 10⟩ 3 [9])
            (fun _ => InEvent.timeout))).2) :=
  run_twice_exhausted.2 M2State M2Body Unit M2Err SignResult (m2SM demoCrypto)
    (m2Init 1 2 ⟨1, 10⟩ 3 [9]) (fun _ => InEvent.timeout) 2 2

/-- The fixed three-party scenario: key pairs with fixed per-party seeds. -/
def kps3 : List (KeyPair × Nat) := [(⟨1, 10⟩, 3), (⟨2, 20⟩, 4), (⟨3, 30⟩, 5)]

/-- Sanity check of the embedded pipeline: the concrete three-party
simulation runs to completion through Prepare, Round1 and Round2, producing
one verified `SignResult` per party with the same `r` at every party. -/
theorem m2_three_party_run_completes :
    (simRun (m2SM demoCrypto) 5 (mkParties kps3 [9])).1 =
      some (SimStep.ok [⟨67, 107, 16⟩, ⟨67, 108, 18⟩, ⟨67, 109, 20⟩]) := by
  decide

/-- Claim C7: the Simulation Executor is deterministic — two runs over
parties built from the same fixed per-party seeds, key pairs and message
(the whole pipeline from Prepare's nonce derivation through Round2's
aggregation) produce identical results, in particular identical `(r, s)`. -/
theorem sim_run_deterministic :
    ∀ (C : MusigCrypto) (kps : List (KeyPair × Nat)) (msg : List Nat) (fuel : Nat)
      (ps1 ps2 : List M2State),
      ps1 = mkParties kps msg → ps2 = mkParties kps msg →
      simRun (m2SM C) fuel ps1 = simRun (m2SM C) fuel ps2 := by
  intro C kps msg fuel ps1 ps2 h1 h2
  rw [h1, h2]

/-- Witness for `sim_run_deterministic`: the three-party scenario run twice. -/
theorem sim_run_deterministic_witness :
    simRun (m2SM demoCrypto) 5 (mkParties kps3 [9]) =
      simRun (m2SM demoCrypto) 5 (mkParties kps3 [9]) :=
  sim_run_deterministic demoCrypto kps3 [9] 5 _ _ rfl rfl

end Musig2
